import Mathlib

/-!
Verification of the parameter-backup scripts (`param_download.py`,
`param_manager.py`).  Both scripts share, line for line, the same
parameter-collection loop, the same file-formatting code and the same
`run_git_command` helper; they differ only in the commit-failure handling of
the git pipeline and in one extra header line.  The definitions below are a
shallow embedding of that code: machine time is modelled by natural numbers,
each iteration of the `while True` loop is driven by one `PollStep` input
describing what `time.time()` and `recv_match` returned there.
-/

/-- A parameter value as held by the scripts.  The scripts receive IEEE
floats from pymavlink and render them with the fixed-point format of width 8
(`.8f`); we model a float abstractly by the integer `m` such that the decimal
rendering produced by that format is `m / 10 ^ 8` (sign, integer digits, dot,
eight fraction digits).  `other` covers the non-float branch of the
`isinstance` test, rendered verbatim. -/
inductive PValue where
  | float (m : Int)
  | other (s : String)
deriving DecidableEq

/-- Python `str.rstrip` with the single NUL character, as applied to
`msg.param_id` in both scripts: drop every trailing NUL byte. -/
def rstripNul (s : String) : String :=
  String.mk ((s.data.reverse.dropWhile fun c => c = '\x00').reverse)

/-- One `PARAM_VALUE` message as the loop reads it.  `param_id = none` models
the `AttributeError` branch (a `param_id` that cannot be processed as text);
otherwise it is the raw name, trailing NULs included. -/
structure ParamMsg where
  param_id : Option String
  param_value : PValue
  param_count : Nat
  param_index : Nat
deriving DecidableEq

/-- The environment of one iteration of the `while True` loop: the value of
`time.time()` read at the top of the loop (`tNow`), what
`recv_match(timeout=2)` returned (`msg`, `none` on a 2-second timeout), and
the value of `time.time()` read when `start_time` is reset after a
successfully processed message (`tAfter`). -/
structure PollStep where
  tNow : Nat
  msg : Option ParamMsg
  tAfter : Nat
deriving DecidableEq

/-- The Python dict assignment `parameters[param_id] = value` on an
association list with distinct keys: overwrite the binding if the key is
present, append it otherwise. -/
def dinsert (k : String) (v : PValue) : List (String × PValue) → List (String × PValue)
  | [] => [(k, v)]
  | (k', v') :: rest => if k' = k then (k', v) :: rest else (k', v') :: dinsert k v rest

/-- Why the collection loop stopped: the overall idle timeout fired
(`return` at the top of the loop), the index-based completion test fired
(`break` with the message "based on index"), or the count-based completion
test fired (`break` with the warning "based on count"). -/
inductive StopReason where
  | timeout
  | indexComplete
  | countComplete
deriving DecidableEq

/-- State carried out of the loop when it stops: the accumulated dict, the
value of `param_count_expected`, and the reason for stopping. -/
structure CollectResult where
  parameters : List (String × PValue)
  param_count_expected : Option Nat
  reason : StopReason
deriving DecidableEq

/-- Result of one loop iteration: either the loop stops with a
`CollectResult`, or it continues with a new `start_time`,
`param_count_expected` and `parameters`. -/
inductive StepOut where
  | stop (r : CollectResult)
  | cont (start_time : Nat) (pce : Option Nat) (params : List (String × PValue))
deriving DecidableEq

/-- One iteration of the collection loop, translated from the shared loop
body of the two scripts: first the idle-timeout check
(`current_time - start_time > timeout_seconds` causes `return`), then the
`recv_match` result; a message whose `param_id` raises (`none`) or strips to
the empty string is dropped by the `if param_id:` test; an accepted message
sets `param_count_expected` if still unset, overwrites the dict entry,
resets `start_time`, and then runs the two completion tests in order:
`param_index == param_count_expected - 1` first, `len(parameters) >=
param_count_expected` second. -/
def collectStep (timeout_seconds : Nat) (step : PollStep) (start_time : Nat)
    (pce : Option Nat) (params : List (String × PValue)) : StepOut :=
  if start_time + timeout_seconds < step.tNow then
    .stop ⟨params, pce, .timeout⟩
  else
    match step.msg with
    | none => .cont start_time pce params
    | some m =>
      match m.param_id.map rstripNul with
      | none => .cont start_time pce params
      | some pid =>
        if pid = "" then .cont start_time pce params
        else
          let pce' := pce.getD m.param_count
          let params' := dinsert pid m.param_value params
          if (m.param_index : Int) = (pce' : Int) - 1 then
            .stop ⟨params', some pce', .indexComplete⟩
          else if pce' ≤ params'.length then
            .stop ⟨params', some pce', .countComplete⟩
          else
            .cont step.tAfter (some pce') params'

/-- The `while True` collection loop, iterated over a finite trace of
`PollStep` inputs; `none` means the trace was exhausted with the loop still
running. -/
def collectLoop (timeout_seconds : Nat) :
    List PollStep → Nat → Option Nat → List (String × PValue) → Option CollectResult
  | [], _, _, _ => none
  | step :: rest, start_time, pce, params =>
    match collectStep timeout_seconds step start_time pce params with
    | .stop r => some r
    | .cont st' pce' ps' => collectLoop timeout_seconds rest st' pce' ps'

/-- The `k` fraction digits produced by fixed-point formatting of the
fraction part `n` (with `n < 10 ^ k`), most significant digit first. -/
def fracDigits : Nat → Nat → List Char
  | 0, _ => []
  | k + 1, n => Nat.digitChar (n / 10 ^ k % 10) :: fracDigits k n

/-- Python fixed-point formatting of width 8 applied to the modelled float
`m / 10 ^ 8`: optional sign, the integer digits, a dot, and exactly the
eight fraction digits. -/
def format8 (m : Int) : String :=
  (if m < 0 then "-" else "") ++ toString (m.natAbs / 10 ^ 8) ++ "." ++
    String.mk (fracDigits 8 (m.natAbs % 10 ^ 8))

/-- The VALUE text written for one parameter: `.8f` formatting for floats,
the verbatim text otherwise (the `isinstance(value, float)` branch). -/
def renderValue : PValue → String
  | .float m => format8 m
  | .other s => s

/-- One body line of the parameter file: `NAME,VALUE`. -/
def paramLine (nv : String × PValue) : String :=
  nv.1 ++ "," ++ renderValue nv.2

/-- Python `sorted(parameters.items())`: since the dict keys are distinct the
tuple comparison never reaches the values, so it sorts by name. -/
def sortParams (params : List (String × PValue)) : List (String × PValue) :=
  params.mergeSort fun a b => decide (a.1 ≤ b.1)

/-- The body of the written file: one `NAME,VALUE` line per entry of the
sorted dict. -/
def bodyLines (params : List (String × PValue)) : List String :=
  (sortParams params).map paramLine

/-- The full lines written by `param_download.py`: the five header lines
(including the `Last Updated` timestamp and the vehicle identity) followed
by the sorted body. -/
def fileLines (ts : String) (sys comp : Nat) (params : List (String × PValue)) :
    List String :=
  ["# ArduPilot Parameter File",
   "# Last Updated: " ++ ts,
   "# Vehicle: System=" ++ toString sys ++ ", Component=" ++ toString comp,
   "# Parameters: " ++ toString params.length,
   "#"] ++ bodyLines params

/-- How one git subprocess invocation ended, as distinguished by
`run_git_command`: clean exit, `FileNotFoundError`, `CalledProcessError`
carrying the captured stderr and stdout, or any other exception. -/
inductive GitOutcome where
  | success
  | notFound
  | calledProcessError (stderr stdout : String)
  | otherError
deriving DecidableEq

/-- Contiguous-sublist search on character lists, used to model the Python
substring operator `in`. -/
def listContains (pat : List Char) : List Char → Bool
  | [] => pat.isEmpty
  | c :: rest => pat.isPrefixOf (c :: rest) || listContains pat rest

/-- The substring test `"nothing to commit" in text` from
`run_git_command`. -/
def nothingToCommit (text : String) : Bool :=
  listContains "nothing to commit".data text.data

/-- Return value of `run_git_command` (identical in both scripts): `True` on
clean exit, and on `CalledProcessError` also `True` exactly when either
captured stream contains "nothing to commit"; `False` otherwise. -/
def run_git_command : GitOutcome → Bool
  | .success => true
  | .notFound => false
  | .calledProcessError err out => nothingToCommit err || nothingToCommit out
  | .otherError => false

/-- The four git pipeline stages. -/
inductive GitStep where
  | pull
  | add
  | commit
  | push
deriving DecidableEq

/-- The git pipeline of `param_download.py`: pull, add, commit, push in
order, each guarded by `if not run_git_command(...): return`.  Returns the
list of stages actually invoked and whether the pipeline reached its end. -/
def gitOps_download (rPull rAdd rCommit rPush : GitOutcome) : List GitStep × Bool :=
  if !run_git_command rPull then ([.pull], false)
  else if !run_git_command rAdd then ([.pull, .add], false)
  else if !run_git_command rCommit then ([.pull, .add, .commit], false)
  else if !run_git_command rPush then ([.pull, .add, .commit, .push], false)
  else ([.pull, .add, .commit, .push], true)

/-- The git pipeline of `param_manager.py`: same stages, but the `return`
after a failed commit is commented out, so the pipeline always proceeds from
commit to push once pull and add have succeeded. -/
def gitOps_manager (rPull rAdd _rCommit rPush : GitOutcome) : List GitStep × Bool :=
  if !run_git_command rPull then ([.pull], false)
  else if !run_git_command rAdd then ([.pull, .add], false)
  else if !run_git_command rPush then ([.pull, .add, .commit, .push], false)
  else ([.pull, .add, .commit, .push], true)

/-- The externally visible effects of one run of `main` in
`param_download.py` (after a successful heartbeat): the outbound requests
sent (`param_request_list_send` targets), the collection result, the file
lines written (if the save section was reached), and the git stages run. -/
structure MainOut where
  requests : List (Nat × Nat)
  collected : Option CollectResult
  fileWritten : Option (List String)
  gitSteps : List GitStep
  gitOk : Bool
deriving DecidableEq

/-- `main` of `param_download.py` from the point where the heartbeat has
been received: send the single parameter-list request to the responder
identity, run the collection loop with `timeout_seconds = 45`, and follow
the source's control flow afterwards: the idle-timeout branch prints an
error and returns (no save, no git); an empty dict returns (no save, no
git); otherwise the file is written and the git pipeline runs. -/
def mainRun (sys comp t0 : Nat) (trace : List PollStep) (ts : String)
    (rPull rAdd rCommit rPush : GitOutcome) : Option MainOut :=
  match collectLoop 45 trace t0 none [] with
  | none => none
  | some r =>
    match r.reason with
    | .timeout => some ⟨[(sys, comp)], some r, none, [], false⟩
    | _ =>
      if r.parameters.isEmpty then some ⟨[(sys, comp)], some r, none, [], false⟩
      else
        let gout := gitOps_download rPull rAdd rCommit rPush
        some ⟨[(sys, comp)], some r, some (fileLines ts sys comp r.parameters),
          gout.1, gout.2⟩

/-- Strict key order on dict entries is vacuously antisymmetric, which lets
two sorted permutations with distinct keys be identified. -/
instance : IsAntisymm (String × PValue) fun a b => a.1 < b.1 :=
  ⟨fun _ _ h h' => absurd (lt_trans h h') (lt_irrefl _)⟩

/-! Basic step lemmas, shared by the claim theorems below. -/

theorem collectStep_timeout {t : Nat} {step : PollStep} {st : Nat} {pce : Option Nat}
    {ps : List (String × PValue)} (h : st + t < step.tNow) :
    collectStep t step st pce ps = .stop ⟨ps, pce, .timeout⟩ := by
  simp [collectStep, h]

theorem collectStep_noMsg {t : Nat} {step : PollStep} {st : Nat} {pce : Option Nat}
    {ps : List (String × PValue)} (h : ¬ st + t < step.tNow) (hm : step.msg = none) :
    collectStep t step st pce ps = .cont st pce ps := by
  simp [collectStep, h, hm]

theorem collectStep_badId {t : Nat} {step : PollStep} {st : Nat} {pce : Option Nat}
    {ps : List (String × PValue)} {m : ParamMsg} (h : ¬ st + t < step.tNow)
    (hm : step.msg = some m) (hid : m.param_id = none) :
    collectStep t step st pce ps = .cont st pce ps := by
  simp [collectStep, h, hm, hid]

theorem collectStep_emptyId {t : Nat} {step : PollStep} {st : Nat} {pce : Option Nat}
    {ps : List (String × PValue)} {m : ParamMsg} {s : String} (h : ¬ st + t < step.tNow)
    (hm : step.msg = some m) (hid : m.param_id = some s) (he : rstripNul s = "") :
    collectStep t step st pce ps = .cont st pce ps := by
  simp [collectStep, h, hm, hid, he]

theorem collectStep_accept {t : Nat} {step : PollStep} {st : Nat} {pce : Option Nat}
    {ps : List (String × PValue)} {m : ParamMsg} {s : String} (h : ¬ st + t < step.tNow)
    (hm : step.msg = some m) (hid : m.param_id = some s) (hne : rstripNul s ≠ "") :
    collectStep t step st pce ps =
      (let pce' := pce.getD m.param_count
       let params' := dinsert (rstripNul s) m.param_value ps
       if (m.param_index : Int) = (pce' : Int) - 1 then
         .stop ⟨params', some pce', .indexComplete⟩
       else if pce' ≤ params'.length then
         .stop ⟨params', some pce', .countComplete⟩
       else
         .cont step.tAfter (some pce') params') := by
  simp [collectStep, h, hm, hid, hne]

/-! Claim theorems. -/

/-- C2: after every accepted update the completion test is evaluated in
priority order: if the reported index equals `param_count_expected - 1` the
loop stops with the index-based Complete outcome; otherwise, if the number
of distinct names collected is at least `param_count_expected`, it stops
with the count-based Complete outcome; only when both tests fail does the
loop continue. -/
theorem completion_test_priority (t : Nat) (step : PollStep) (rest : List PollStep)
    (st : Nat) (pce : Option Nat) (ps : List (String × PValue)) (m : ParamMsg) (s : String)
    (hno : ¬ st + t < step.tNow) (hm : step.msg = some m) (hid : m.param_id = some s)
    (hne : rstripNul s ≠ "") :
    ((m.param_index : Int) = ((pce.getD m.param_count : Nat) : Int) - 1 →
        collectLoop t (step :: rest) st pce ps =
          some ⟨dinsert (rstripNul s) m.param_value ps, some (pce.getD m.param_count),
            .indexComplete⟩)
    ∧ ((m.param_index : Int) ≠ ((pce.getD m.param_count : Nat) : Int) - 1 →
        pce.getD m.param_count ≤ (dinsert (rstripNul s) m.param_value ps).length →
        collectLoop t (step :: rest) st pce ps =
          some ⟨dinsert (rstripNul s) m.param_value ps, some (pce.getD m.param_count),
            .countComplete⟩)
    ∧ ((m.param_index : Int) ≠ ((pce.getD m.param_count : Nat) : Int) - 1 →
        ¬ pce.getD m.param_count ≤ (dinsert (rstripNul s) m.param_value ps).length →
        collectLoop t (step :: rest) st pce ps =
          collectLoop t rest step.tAfter (some (pce.getD m.param_count))
            (dinsert (rstripNul s) m.param_value ps)) := by
  refine ⟨fun hidx => ?_, fun hidx hcnt => ?_, fun hidx hcnt => ?_⟩
  · simp only [collectLoop, collectStep_accept hno hm hid hne]
    simp [hidx]
  · simp only [collectLoop, collectStep_accept hno hm hid hne]
    simp [hidx, hcnt]
  · simp only [collectLoop, collectStep_accept hno hm hid hne]
    simp [hidx, hcnt]

/-- Witness for C2: a concrete accepted update whose index 2 equals the
declared count 3 minus one stops the loop index-based. -/
theorem completion_test_priority_witness :
    collectLoop 45 [⟨1, some ⟨some "A", .float 2, 3, 2⟩, 1⟩] 0 none [] =
      some ⟨[("A", .float 2)], some 3, .indexComplete⟩ := by
  have h := (completion_test_priority 45 ⟨1, some ⟨some "A", .float 2, 3, 2⟩, 1⟩ [] 0 none
      [] ⟨some "A", .float 2, 3, 2⟩ "A" (by decide) rfl rfl (by decide)).1 (by decide)
  simpa [dinsert] using h

/-- C3: the index-based completion check fires on the very first accepted
message when its reported index equals the reported total minus one: the
loop stops Complete (index-based) with a single collected entry, which is
fewer than the declared total whenever that total is at least two. -/
theorem index_complete_on_first_message (t : Nat) (step : PollStep) (rest : List PollStep)
    (t0 : Nat) (m : ParamMsg) (s : String)
    (hno : ¬ t0 + t < step.tNow) (hm : step.msg = some m) (hid : m.param_id = some s)
    (hne : rstripNul s ≠ "")
    (hidx : (m.param_index : Int) = (m.param_count : Int) - 1) :
    collectLoop t (step :: rest) t0 none [] =
      some ⟨[(rstripNul s, m.param_value)], some m.param_count, .indexComplete⟩
    ∧ (2 ≤ m.param_count →
        ([(rstripNul s, m.param_value)] : List (String × PValue)).length < m.param_count) := by
  constructor
  · simp only [collectLoop, collectStep_accept hno hm hid hne]
    simp [dinsert, hidx]
  · intro h2
    simp only [List.length_singleton]
    omega

/-- Witness for C3: the very first message reports index 2 of total 3; the
loop stops Complete (index-based) with one entry, fewer than the declared
three. -/
theorem index_complete_on_first_message_witness :
    collectLoop 45 [⟨5, some ⟨some "FOO", .float 1, 3, 2⟩, 5⟩] 0 none [] =
      some ⟨[("FOO", .float 1)], some 3, .indexComplete⟩ ∧
    ([("FOO", PValue.float 1)] : List (String × PValue)).length < 3 := by
  have h := index_complete_on_first_message 45 ⟨5, some ⟨some "FOO", .float 1, 3, 2⟩, 5⟩
    [] 0 ⟨some "FOO", .float 1, 3, 2⟩ "FOO" (by decide) rfl rfl (by decide) (by decide)
  have h2 := h.2 (by decide)
  exact ⟨by simp only [rstripNul] at h ⊢; exact h.1, h2⟩

/-- C4: the overall timeout is an idle timeout measured from the last
successfully processed update: the loop stops with the timeout outcome
exactly when the time read at the top of the iteration exceeds the last
reset point by more than `timeout_seconds`; an empty wait, an undecodable
name and an all-NUL name all leave the reset point unchanged; an accepted
update that completes neither test continues with the reset point moved to
the time read after processing it. -/
theorem idle_timeout_semantics (t : Nat) (step : PollStep) (rest : List PollStep)
    (st : Nat) (pce : Option Nat) (ps : List (String × PValue)) :
    (st + t < step.tNow →
        collectLoop t (step :: rest) st pce ps = some ⟨ps, pce, .timeout⟩)
    ∧ (¬ st + t < step.tNow → step.msg = none →
        collectLoop t (step :: rest) st pce ps = collectLoop t rest st pce ps)
    ∧ (¬ st + t < step.tNow → ∀ m : ParamMsg, step.msg = some m → m.param_id = none →
        collectLoop t (step :: rest) st pce ps = collectLoop t rest st pce ps)
    ∧ (¬ st + t < step.tNow → ∀ (m : ParamMsg) (s : String), step.msg = some m →
        m.param_id = some s → rstripNul s = "" →
        collectLoop t (step :: rest) st pce ps = collectLoop t rest st pce ps)
    ∧ (¬ st + t < step.tNow → ∀ (m : ParamMsg) (s : String), step.msg = some m →
        m.param_id = some s → rstripNul s ≠ "" →
        (m.param_index : Int) ≠ ((pce.getD m.param_count : Nat) : Int) - 1 →
        ¬ pce.getD m.param_count ≤ (dinsert (rstripNul s) m.param_value ps).length →
        collectLoop t (step :: rest) st pce ps =
          collectLoop t rest step.tAfter (some (pce.getD m.param_count))
            (dinsert (rstripNul s) m.param_value ps)) := by
  refine ⟨fun hto => ?_, fun hno hm => ?_, fun hno m hm hid => ?_,
    fun hno m s hm hid he => ?_, fun hno m s hm hid hne hidx hcnt => ?_⟩
  · simp only [collectLoop, collectStep_timeout hto]
  · simp only [collectLoop, collectStep_noMsg hno hm]
  · simp only [collectLoop, collectStep_badId hno hm hid]
  · simp only [collectLoop, collectStep_emptyId hno hm hid he]
  · simp only [collectLoop, collectStep_accept hno hm hid hne]
    simp [hidx, hcnt]

/-- Witness for C4: an empty wait at time 10 does not reset the idle clock,
so the next iteration still measures from 0 and the timeout fires at time
50. -/
theorem idle_timeout_semantics_witness :
    collectLoop 45 [⟨10, none, 10⟩, ⟨50, none, 50⟩] 0 none [] =
      collectLoop 45 [⟨50, none, 50⟩] 0 none [] ∧
    collectLoop 45 [⟨50, none, 50⟩] 0 none [] = some ⟨[], none, .timeout⟩ := by
  constructor
  · exact (idle_timeout_semantics 45 ⟨10, none, 10⟩ [⟨50, none, 50⟩] 0 none []).2.1
      (by decide) rfl
  · exact (idle_timeout_semantics 45 ⟨50, none, 50⟩ [] 0 none []).1 (by decide)

/-- Helper: every result of one loop iteration has one of five shapes:
timeout stop, unchanged continue (empty wait, undecodable name, or name that
strips to empty), or one of the three accepted-update results. -/
theorem collectStep_classify (t : Nat) (step : PollStep) (st : Nat) (pce : Option Nat)
    (ps : List (String × PValue)) :
    collectStep t step st pce ps = .stop ⟨ps, pce, .timeout⟩
    ∨ collectStep t step st pce ps = .cont st pce ps
    ∨ ∃ m s, step.msg = some m ∧ m.param_id = some s ∧ rstripNul s ≠ "" ∧
        (collectStep t step st pce ps =
            .stop ⟨dinsert (rstripNul s) m.param_value ps, some (pce.getD m.param_count),
              .indexComplete⟩
         ∨ collectStep t step st pce ps =
            .stop ⟨dinsert (rstripNul s) m.param_value ps, some (pce.getD m.param_count),
              .countComplete⟩
         ∨ collectStep t step st pce ps =
            .cont step.tAfter (some (pce.getD m.param_count))
              (dinsert (rstripNul s) m.param_value ps)) := by
  by_cases hto : st + t < step.tNow
  · exact Or.inl (collectStep_timeout hto)
  · cases hm : step.msg with
    | none => exact Or.inr (Or.inl (collectStep_noMsg hto hm))
    | some m =>
      cases hid : m.param_id with
      | none => exact Or.inr (Or.inl (collectStep_badId hto hm hid))
      | some s =>
        by_cases he : rstripNul s = ""
        · exact Or.inr (Or.inl (collectStep_emptyId hto hm hid he))
        · refine Or.inr (Or.inr ⟨m, s, rfl, hid, he, ?_⟩)
          rw [collectStep_accept hto hm hid he]
          by_cases hidx : (m.param_index : Int) = ((pce.getD m.param_count : Nat) : Int) - 1
          · exact Or.inl (by simp [hidx])
          · by_cases hcnt :
              pce.getD m.param_count ≤ (dinsert (rstripNul s) m.param_value ps).length
            · exact Or.inr (Or.inl (by simp [hidx, hcnt]))
            · exact Or.inr (Or.inr (by simp [hidx, hcnt]))

/-- Helper: once `param_count_expected` holds a value, every later iteration
keeps that value, so the loop's result reports it unchanged. -/
theorem collectLoop_pce_fixed (t : Nat) :
    ∀ (trace : List PollStep) (st c : Nat) (ps : List (String × PValue))
      (r : CollectResult),
      collectLoop t trace st (some c) ps = some r → r.param_count_expected = some c := by
  intro trace
  induction trace with
  | nil => intro st c ps r h; exact absurd h (by simp [collectLoop])
  | cons step rest ih =>
    intro st c ps r h
    simp only [collectLoop] at h
    rcases collectStep_classify t step st (some c) ps with hs | hs |
      ⟨m, s, _, _, _, hs | hs | hs⟩ <;> rw [hs] at h <;> simp only [Option.getD_some] at h
    · cases h; rfl
    · exact ih st c ps r h
    · cases h; rfl
    · cases h; rfl
    · exact ih step.tAfter c (dinsert (rstripNul s) m.param_value ps) r h

/-- C7: the declared total, once observed, never changes for the rest of the
run: started with `param_count_expected = some c` the loop's result reports
`some c` whatever later messages say, and started unset, the result after a
first accepted update reports that update's `param_count` for the rest of
the run. -/
theorem declared_count_fixed (t : Nat) :
    (∀ (trace : List PollStep) (st c : Nat) (ps : List (String × PValue))
        (r : CollectResult),
        collectLoop t trace st (some c) ps = some r → r.param_count_expected = some c)
    ∧ (∀ (step : PollStep) (rest : List PollStep) (st : Nat)
        (ps : List (String × PValue)) (m : ParamMsg) (s : String) (r : CollectResult),
        ¬ st + t < step.tNow → step.msg = some m → m.param_id = some s →
        rstripNul s ≠ "" →
        collectLoop t (step :: rest) st none ps = some r →
        r.param_count_expected = some m.param_count) := by
  refine ⟨collectLoop_pce_fixed t, ?_⟩
  intro step rest st ps m s r hno hm hid hne h
  simp only [collectLoop, collectStep_accept hno hm hid hne, Option.getD_none] at h
  by_cases hidx : (m.param_index : Int) = (m.param_count : Int) - 1
  · rw [if_pos hidx] at h
    cases h; rfl
  · rw [if_neg hidx] at h
    by_cases hcnt : m.param_count ≤ (dinsert (rstripNul s) m.param_value ps).length
    · rw [if_pos hcnt] at h
      cases h; rfl
    · rw [if_neg hcnt] at h
      exact collectLoop_pce_fixed t rest step.tAfter m.param_count _ r h

/-- Witness for C7: the first accepted message declares a total of 9, a
later one declares 12; the run's result still reports 9. -/
theorem declared_count_fixed_witness :
    (⟨[("A", PValue.float 0), ("B", PValue.float 1)], some 9, .timeout⟩ :
        CollectResult).param_count_expected = some 9 :=
  (declared_count_fixed 45).2 ⟨1, some ⟨some "A", .float 0, 9, 0⟩, 1⟩
    [⟨2, some ⟨some "B", .float 1, 12, 1⟩, 2⟩, ⟨100, none, 100⟩] 0 []
    ⟨some "A", .float 0, 9, 0⟩ "A"
    ⟨[("A", PValue.float 0), ("B", PValue.float 1)], some 9, .timeout⟩
    (by decide) rfl rfl (by decide) (by decide)

/-- Helper: dropping a leading block of characters satisfying the predicate
before a list drops nothing further than `dropWhile` already does. -/
theorem dropWhile_replicate_append {p : Char → Bool} {c : Char} (hp : p c = true)
    (l : List Char) : ∀ k, List.dropWhile p (List.replicate k c ++ l) = List.dropWhile p l := by
  intro k
  induction k with
  | zero => rfl
  | succ k ih => rw [List.replicate_succ, List.cons_append, List.dropWhile_cons_of_pos hp, ih]

/-- C10: trailing NUL bytes are stripped from the name before it is used as
the dict key, and a name that strips to the empty string is discarded
exactly like an undecodable name: the iteration neither records anything,
nor resets the idle clock, nor runs the completion test, and it produces the
same result as the same message with an undecodable name. -/
theorem nul_stripping_and_empty_discard (t : Nat) (step : PollStep) (st : Nat)
    (pce : Option Nat) (ps : List (String × PValue)) (m : ParamMsg) (s : String)
    (hno : ¬ st + t < step.tNow) (hm : step.msg = some m) (hid : m.param_id = some s) :
    (rstripNul s = "" →
        collectStep t step st pce ps = .cont st pce ps
        ∧ ∀ (step' : PollStep) (m' : ParamMsg), step'.tNow = step.tNow →
            step'.msg = some m' → m'.param_id = none →
            collectStep t step' st pce ps = collectStep t step st pce ps)
    ∧ (rstripNul s ≠ "" →
        collectStep t step st pce ps ∈
          [StepOut.stop ⟨dinsert (rstripNul s) m.param_value ps,
              some (pce.getD m.param_count), .indexComplete⟩,
           StepOut.stop ⟨dinsert (rstripNul s) m.param_value ps,
              some (pce.getD m.param_count), .countComplete⟩,
           StepOut.cont step.tAfter (some (pce.getD m.param_count))
              (dinsert (rstripNul s) m.param_value ps)])
    ∧ (∀ k, rstripNul (String.mk (s.data ++ List.replicate k '\x00')) = rstripNul s) := by
  refine ⟨fun he => ⟨collectStep_emptyId hno hm hid he, ?_⟩, fun hne => ?_, fun k => ?_⟩
  · intro step' m' htn hm' hid'
    have hno' : ¬ st + t < step'.tNow := by rw [htn]; exact hno
    rw [collectStep_badId hno' hm' hid', collectStep_emptyId hno hm hid he]
  · rw [collectStep_accept hno hm hid hne]
    by_cases hidx : (m.param_index : Int) = ((pce.getD m.param_count : Nat) : Int) - 1
    · simp [hidx]
    · by_cases hcnt : pce.getD m.param_count ≤ (dinsert (rstripNul s) m.param_value ps).length
      · simp [hidx, hcnt]
      · simp [hidx, hcnt]
  · simp only [rstripNul, List.reverse_append, List.reverse_replicate]
    rw [dropWhile_replicate_append (by decide) s.data.reverse k]

/-- Witness for C10: a name of two NUL bytes is discarded with state
unchanged, exactly as an undecodable name is, and stripping three trailing
NULs off "AB" leaves "AB". -/
theorem nul_stripping_and_empty_discard_witness :
    collectStep 45 ⟨1, some ⟨some "\x00\x00", PValue.float 0, 3, 0⟩, 1⟩ 0 none [] =
      .cont 0 none []
    ∧ rstripNul (String.mk ("AB".data ++ List.replicate 3 '\x00')) = rstripNul "AB" := by
  constructor
  · exact ((nul_stripping_and_empty_discard 45 ⟨1, some ⟨some "\x00\x00", PValue.float 0, 3, 0⟩, 1⟩
      0 none [] ⟨some "\x00\x00", PValue.float 0, 3, 0⟩ "\x00\x00"
      (by decide) rfl rfl).1 (by decide)).1
  · exact (nul_stripping_and_empty_discard 45 ⟨1, some ⟨some "AB", PValue.float 0, 3, 0⟩, 1⟩
      0 none [] ⟨some "AB", PValue.float 0, 3, 0⟩ "AB" (by decide) rfl rfl).2.2 3

/-- C9: one run of `main` sends exactly one outbound parameter-list request,
addressed to the responder identity learned from the heartbeat, whatever the
collection trace and outcome are — in particular no re-request happens after
a timeout or partial outcome. -/
theorem single_request_per_run (sys comp t0 : Nat) (trace : List PollStep) (ts : String)
    (r1 r2 r3 r4 : GitOutcome) (out : MainOut)
    (h : mainRun sys comp t0 trace ts r1 r2 r3 r4 = some out) :
    out.requests = [(sys, comp)] := by
  unfold mainRun at h
  rcases hr : collectLoop 45 trace t0 none [] with _ | r
  · rw [hr] at h; cases h
  · rw [hr] at h
    rcases r with ⟨ps, pce, reason⟩
    cases reason
    · cases h; rfl
    · simp only at h
      split at h <;> (cases h; rfl)
    · simp only at h
      split at h <;> (cases h; rfl)

/-- Witness for C9: a run that times out empty still has the single request
to the handshake identity as its only outbound send. -/
theorem single_request_per_run_witness :
    (⟨[(2, 3)], some ⟨[], none, .timeout⟩, none, [], false⟩ : MainOut).requests =
      [(2, 3)] :=
  single_request_per_run 2 3 0 [⟨100, none, 100⟩] "t" .success .success .success .success
    ⟨[(2, 3)], some ⟨[], none, .timeout⟩, none, [], false⟩ (by decide)

/-- C1 (amended): when the overall idle timeout elapses after at least one
parameter has been received, the loop returns the partial set intact (the
timeout return passes the accumulated dict through unchanged), but the run
does not persist it: `main` returns from inside the loop, so neither the
file write nor any git step happens for the partial set. -/
theorem timeout_aborts_without_persisting (sys comp t0 : Nat) (trace : List PollStep)
    (ts : String) (r1 r2 r3 r4 : GitOutcome) (r : CollectResult)
    (hr : collectLoop 45 trace t0 none [] = some r)
    (hto : r.reason = .timeout)
    (_hne : r.parameters ≠ []) :
    mainRun sys comp t0 trace ts r1 r2 r3 r4 =
      some ⟨[(sys, comp)], some r, none, [], false⟩
    ∧ (∀ (t : Nat) (step : PollStep) (st : Nat) (pce : Option Nat)
          (ps : List (String × PValue)), st + t < step.tNow →
        collectStep t step st pce ps = .stop ⟨ps, pce, .timeout⟩) := by
  constructor
  · rcases r with ⟨ps, pce, reason⟩
    simp only at hto
    subst hto
    unfold mainRun
    rw [hr]
  · intro t step st pce ps h
    exact collectStep_timeout h

/-- Witness for C1 (amended): one parameter arrives, then the idle timeout
fires; the run returns the one-entry partial set and writes nothing. -/
theorem timeout_aborts_without_persisting_witness :
    mainRun 4 5 0 [⟨1, some ⟨some "B", PValue.float 7, 9, 0⟩, 1⟩, ⟨99, none, 99⟩] "x"
      .success .success .success .success =
      some ⟨[(4, 5)], some ⟨[("B", PValue.float 7)], some 9, .timeout⟩, none, [], false⟩ :=
  (timeout_aborts_without_persisting 4 5 0
    [⟨1, some ⟨some "B", PValue.float 7, 9, 0⟩, 1⟩, ⟨99, none, 99⟩] "x"
    .success .success .success .success ⟨[("B", PValue.float 7)], some 9, .timeout⟩
    (by decide) rfl (by decide)).1

/-- Counterexample to C1 as stated: a run that receives one parameter and
then hits the overall idle timeout returns with the partial set, but the
file write does not happen (`fileWritten = none`) and no git step runs
(`gitSteps = []`), contradicting the claim that the file write and publish
steps still happen for the partial set. -/
theorem timeout_partial_not_persisted_example :
    mainRun 1 1 0 [⟨1, some ⟨some "A", PValue.float 0, 3, 0⟩, 1⟩, ⟨100, none, 100⟩] "t"
      .success .success .success .success =
      some ⟨[(1, 1)], some ⟨[("A", PValue.float 0)], some 3, .timeout⟩, none, [], false⟩ := by
  decide

/-- C6 (amended): in `param_download.py` the pipeline behaves as claimed: a
pull failure aborts after pull alone, an add failure aborts after add, a
commit-stage `CalledProcessError` whose output reports "nothing to commit"
counts as success, any other commit failure aborts before push, a push
failure aborts at the end, and an all-success run finishes; in
`param_manager.py` the commit abort is absent: once pull and add succeed the
pipeline always proceeds to push regardless of the commit outcome. -/
theorem git_pipeline_behavior :
    (∀ r1 r2 r3 r4 : GitOutcome, run_git_command r1 = false →
        gitOps_download r1 r2 r3 r4 = ([.pull], false)
        ∧ gitOps_manager r1 r2 r3 r4 = ([.pull], false))
    ∧ (∀ r1 r2 r3 r4 : GitOutcome, run_git_command r1 = true →
        run_git_command r2 = false →
        gitOps_download r1 r2 r3 r4 = ([.pull, .add], false)
        ∧ gitOps_manager r1 r2 r3 r4 = ([.pull, .add], false))
    ∧ (∀ err out : String, (nothingToCommit err || nothingToCommit out) = true →
        run_git_command (.calledProcessError err out) = true)
    ∧ (∀ r1 r2 r3 r4 : GitOutcome, run_git_command r1 = true →
        run_git_command r2 = true → run_git_command r3 = false →
        gitOps_download r1 r2 r3 r4 = ([.pull, .add, .commit], false)
        ∧ (gitOps_manager r1 r2 r3 r4).1 = [.pull, .add, .commit, .push])
    ∧ (∀ r1 r2 r3 r4 : GitOutcome, run_git_command r1 = true →
        run_git_command r2 = true → run_git_command r3 = true →
        run_git_command r4 = false →
        gitOps_download r1 r2 r3 r4 = ([.pull, .add, .commit, .push], false)
        ∧ gitOps_manager r1 r2 r3 r4 = ([.pull, .add, .commit, .push], false))
    ∧ (∀ r1 r2 r3 r4 : GitOutcome, run_git_command r1 = true →
        run_git_command r2 = true → run_git_command r3 = true →
        run_git_command r4 = true →
        gitOps_download r1 r2 r3 r4 = ([.pull, .add, .commit, .push], true)
        ∧ gitOps_manager r1 r2 r3 r4 = ([.pull, .add, .commit, .push], true)) := by
  refine ⟨fun r1 r2 r3 r4 h1 => ?_, fun r1 r2 r3 r4 h1 h2 => ?_, fun err out h => ?_,
    fun r1 r2 r3 r4 h1 h2 h3 => ?_, fun r1 r2 r3 r4 h1 h2 h3 h4 => ?_,
    fun r1 r2 r3 r4 h1 h2 h3 h4 => ?_⟩
  · exact ⟨by simp [gitOps_download, h1], by simp [gitOps_manager, h1]⟩
  · exact ⟨by simp [gitOps_download, h1, h2], by simp [gitOps_manager, h1, h2]⟩
  · simp [run_git_command, h]
  · constructor
    · simp [gitOps_download, h1, h2, h3]
    · rcases h4 : run_git_command r4 <;> simp [gitOps_manager, h1, h2, h4]
  · exact ⟨by simp [gitOps_download, h1, h2, h3, h4], by simp [gitOps_manager, h1, h2, h4]⟩
  · exact ⟨by simp [gitOps_download, h1, h2, h3, h4], by simp [gitOps_manager, h1, h2, h4]⟩

/-- Witness for C6 (amended): with pull and add clean and the commit step
failing for a reason other than "nothing to commit", the download variant
stops after commit while the manager variant still runs push. -/
theorem git_pipeline_behavior_witness :
    gitOps_download .success .success .otherError .success = ([.pull, .add, .commit], false)
    ∧ (gitOps_manager .success .success .otherError .success).1 =
        [.pull, .add, .commit, .push] :=
  git_pipeline_behavior.2.2.2.1 .success .success .otherError .success
    (by decide) (by decide) (by decide)

/-- Counterexample to C6 as stated: in `param_manager.py` a commit failure
whose output does not contain "nothing to commit" (here a fatal error) does
not abort: the pipeline still runs push, and even reports overall success,
although `run_git_command` classified the commit as failed. -/
theorem commit_failure_does_not_abort_manager :
    gitOps_manager .success .success (.calledProcessError "fatal: bad object HEAD" "")
        .success = ([.pull, .add, .commit, .push], true)
    ∧ run_git_command (.calledProcessError "fatal: bad object HEAD" "") = false := by
  decide

/-- Helper: the sorted dict is pairwise ordered by name. -/
theorem sortParams_sorted (l : List (String × PValue)) :
    (sortParams l).Pairwise fun a b => a.1 ≤ b.1 := by
  have h : List.Pairwise (fun a b : String × PValue => decide (a.1 ≤ b.1) = true)
      (List.mergeSort l fun a b : String × PValue => decide (a.1 ≤ b.1)) := by
    apply List.sorted_mergeSort
    · intro a b c h1 h2
      simp only [decide_eq_true_eq] at h1 h2 ⊢
      exact le_trans h1 h2
    · intro a b
      simp only [Bool.or_eq_true, decide_eq_true_eq]
      exact le_total a.1 b.1
  exact h.imp fun hab => of_decide_eq_true hab

/-- Helper: sorting permutes the dict entries. -/
theorem sortParams_perm (l : List (String × PValue)) : (sortParams l).Perm l :=
  List.mergeSort_perm l _

/-- Helper: on dicts with distinct keys, sorting is a function of the
underlying mapping: permuted entry lists sort to the same list. -/
theorem sortParams_eq_of_perm (l₁ l₂ : List (String × PValue)) (hp : l₁.Perm l₂)
    (hnd : (l₁.map Prod.fst).Nodup) : sortParams l₁ = sortParams l₂ := by
  have hnd₂ : (l₂.map Prod.fst).Nodup := (hp.map Prod.fst).nodup_iff.mp hnd
  have key : ∀ l : List (String × PValue), (l.map Prod.fst).Nodup →
      List.Pairwise (fun a b : String × PValue => a.1 < b.1) (sortParams l) := by
    intro l hl
    have hnds : ((sortParams l).map Prod.fst).Nodup :=
      ((sortParams_perm l).map Prod.fst).nodup_iff.mpr hl
    have hne : List.Pairwise (fun a b : String × PValue => a.1 ≠ b.1) (sortParams l) :=
      List.pairwise_map.mp hnds
    exact ((sortParams_sorted l).and hne).imp fun h => lt_of_le_of_ne h.1 h.2
  exact List.eq_of_perm_of_sorted (((sortParams_perm l₁).trans hp).trans
    (sortParams_perm l₂).symm) (key l₁ hnd) (key l₂ hnd₂)

/-- C5 (amended): the file-writing step is a deterministic function of the
parameter mapping together with the header inputs: two writes of an equal
mapping (permuted entries, distinct names) with the same timestamp and
vehicle identity yield identical lines.  Full byte-identity across two
writes does not hold in general, because the header embeds the wall-clock
timestamp (see the counterexample). -/
theorem file_write_deterministic (ts : String) (sys comp : Nat)
    (l₁ l₂ : List (String × PValue)) (hp : l₁.Perm l₂)
    (hnd : (l₁.map Prod.fst).Nodup) :
    fileLines ts sys comp l₁ = fileLines ts sys comp l₂ := by
  unfold fileLines bodyLines
  rw [sortParams_eq_of_perm l₁ l₂ hp hnd, hp.length_eq]

/-- Witness for C5 (amended): two orderings of the same two-entry mapping
produce identical file lines. -/
theorem file_write_deterministic_witness :
    fileLines "ts" 1 1 [("B", PValue.other "y"), ("A", PValue.float 1)] =
      fileLines "ts" 1 1 [("A", PValue.float 1), ("B", PValue.other "y")] :=
  file_write_deterministic "ts" 1 1 _ _
    (List.Perm.swap ("A", PValue.float 1) ("B", PValue.other "y") []) (by decide)

/-- Counterexample to C5 as stated: writing the same one-entry ParameterSet
at two different wall-clock times produces different bytes, because the
second header line embeds the timestamp. -/
theorem file_output_differs_across_times :
    fileLines "2025-01-01 00:00:00" 1 1 [("A", PValue.float 5)] ≠
      fileLines "2025-01-02 00:00:00" 1 1 [("A", PValue.float 5)] := by
  intro h
  have h2 := congrArg (fun l => l.tail.head?) h
  simp only [fileLines, List.cons_append, List.tail_cons, List.head?_cons,
    Option.some.injEq] at h2
  exact absurd h2 (by decide)

/-- Helper: fixed-point fraction rendering always yields exactly `k`
characters. -/
theorem fracDigits_length (k n : Nat) : (fracDigits k n).length = k := by
  induction k with
  | zero => rfl
  | succ k ih => simp [fracDigits, ih]

/-- Helper: `Nat.digitChar` of a value below ten is a decimal digit. -/
theorem digitChar_lt_ten_isDigit (x : Nat) (h : x < 10) :
    (Nat.digitChar x).isDigit = true := by
  interval_cases x <;> decide

/-- Helper: every character of the fixed-point fraction rendering is a
decimal digit. -/
theorem fracDigits_isDigit (k n : Nat) : ∀ c ∈ fracDigits k n, c.isDigit = true := by
  induction k with
  | zero => intro c hc; simp [fracDigits] at hc
  | succ k ih =>
    intro c hc
    simp only [fracDigits, List.mem_cons] at hc
    rcases hc with rfl | hc
    · exact digitChar_lt_ten_isDigit _ (Nat.mod_lt _ (by decide))
    · exact ih c hc

/-- Helper: the float rendering splits into sign, integer digits, a dot and
an eight-digit all-decimal fraction. -/
theorem format8_fraction (m : Int) :
    ∃ b : String, format8 m =
        (if m < 0 then "-" else "") ++ toString (m.natAbs / 10 ^ 8) ++ "." ++ b
      ∧ b.length = 8 ∧ ∀ c ∈ b.data, c.isDigit = true := by
  refine ⟨String.mk (fracDigits 8 (m.natAbs % 10 ^ 8)), rfl, ?_, ?_⟩
  · show (fracDigits 8 (m.natAbs % 10 ^ 8)).length = 8
    exact fracDigits_length 8 _
  · intro c hc
    exact fracDigits_isDigit 8 _ c hc

/-- C8: the body of the output file has one line per dict entry, the lines
appear sorted by name (pairing every entry of the dict, since sorting
permutes it), each line is `NAME,VALUE`, a float VALUE is rendered as sign,
integer digits, a dot and exactly eight decimal fraction digits, and any
other VALUE is rendered verbatim. -/
theorem body_lines_format (params : List (String × PValue)) :
    (bodyLines params).length = params.length
    ∧ ((sortParams params).Pairwise fun a b => a.1 ≤ b.1)
    ∧ (sortParams params).Perm params
    ∧ bodyLines params =
        (sortParams params).map (fun nv => nv.1 ++ "," ++ renderValue nv.2)
    ∧ (∀ m : Int, ∃ b : String,
        renderValue (PValue.float m) =
          (if m < 0 then "-" else "") ++ toString (m.natAbs / 10 ^ 8) ++ "." ++ b
        ∧ b.length = 8 ∧ ∀ c ∈ b.data, c.isDigit = true)
    ∧ ∀ s : String, renderValue (PValue.other s) = s := by
  refine ⟨?_, sortParams_sorted params, sortParams_perm params, rfl,
    fun m => format8_fraction m, fun s => rfl⟩
  unfold bodyLines sortParams
  rw [List.length_map, List.length_mergeSort]

/-- Witness for C8: applied to a one-entry dict, the body has one line and
sorting returns the same entry. -/
theorem body_lines_format_witness :
    (bodyLines [("A", PValue.float 123)]).length = 1
    ∧ (sortParams [("A", PValue.float 123)]).Perm [("A", PValue.float 123)] :=
  ⟨(body_lines_format [("A", PValue.float 123)]).1,
   (body_lines_format [("A", PValue.float 123)]).2.2.1⟩
